import Mathlib

/-!
Verification development for the VaniKeys core: HD key derivation,
SSH fingerprints, the proof protocol, the multi-substring fuzzy matcher,
and the difficulty/probability estimator.  Python sources are shallowly
embedded: bytes become `List Nat` (each element < 256), machine words are
`Nat` reduced modulo `2 ^ w`, fallible code returns `Except`.
-/

namespace VaniKeys

/-! ### Byte and word helpers -/

def M32 : Nat := 4294967296

def M64 : Nat := 18446744073709551616

/-- Big-endian encoding of `n` into `k` bytes (mirrors `struct.pack`). -/
def beBytes (k n : Nat) : List Nat :=
  (List.range k).map (fun i => n / 2 ^ (8 * (k - 1 - i)) % 256)

/-- Big-endian interpretation of a byte list. -/
def beToNat (bs : List Nat) : Nat := bs.foldl (fun acc b => acc * 256 + b) 0

/-- Split a list into chunks of `k` elements; `fuel` bounds the recursion. -/
def chunks (k : Nat) : Nat → List Nat → List (List Nat)
  | 0, _ => []
  | _ + 1, [] => []
  | f + 1, l => l.take k :: chunks k f (l.drop k)

/-- Rotate a `w`-bit word right by `n` bits. -/
def rotr (w n x : Nat) : Nat := x / 2 ^ n + x % 2 ^ n * 2 ^ (w - n)

def chF (m x y z : Nat) : Nat := (x &&& y) ^^^ ((x ^^^ m) &&& z)

def majF (x y z : Nat) : Nat := (x &&& y) ^^^ (x &&& z) ^^^ (y &&& z)

/-- All elements are bytes. -/
def isBytes (bs : List Nat) : Prop := ∀ b ∈ bs, b < 256

instance (bs : List Nat) : Decidable (isBytes bs) := by
  unfold isBytes; infer_instance

/-! ### SHA-256 -/

def K256 : List Nat := [1116352408, 1899447441, 3049323471, 3921009573,
  961987163, 1508970993, 2453635748, 2870763221, 3624381080, 310598401,
  607225278, 1426881987, 1925078388, 2162078206, 2614888103, 3248222580,
  3835390401, 4022224774, 264347078, 604807628, 770255983, 1249150122,
  1555081692, 1996064986, 2554220882, 2821834349, 2952996808, 3210313671,
  3336571891, 3584528711, 113926993, 338241895, 666307205, 773529912,
  1294757372, 1396182291, 1695183700, 1986661051, 2177026350, 2456956037,
  2730485921, 2820302411, 3259730800, 3345764771, 3516065817, 3600352804,
  4094571909, 275423344, 430227734, 506948616, 659060556, 883997877,
  958139571, 1322822218, 1537002063, 1747873779, 1955562222, 2024104815,
  2227730452, 2361852424, 2428436474, 2756734187, 3204031479, 3329325298]

structure Hash8 where
  a : Nat
  b : Nat
  c : Nat
  d : Nat
  e : Nat
  f : Nat
  g : Nat
  h : Nat

def bsig0x256 (x : Nat) : Nat := rotr 32 2 x ^^^ rotr 32 13 x ^^^ rotr 32 22 x

def bsig1x256 (x : Nat) : Nat := rotr 32 6 x ^^^ rotr 32 11 x ^^^ rotr 32 25 x

def ssig0x256 (x : Nat) : Nat := rotr 32 7 x ^^^ rotr 32 18 x ^^^ x / 2 ^ 3

def ssig1x256 (x : Nat) : Nat := rotr 32 17 x ^^^ rotr 32 19 x ^^^ x / 2 ^ 10

/-- Message schedule, generated onto a reversed accumulator. -/
def sched256 : Nat → List Nat → List Nat
  | 0, rws => rws.reverse
  | f + 1, rws =>
    let w := (ssig1x256 (rws.getD 1 0) + rws.getD 6 0 +
      ssig0x256 (rws.getD 14 0) + rws.getD 15 0) % M32
    sched256 f (w :: rws)

def round256 (st : Hash8) (kw : Nat × Nat) : Hash8 :=
  let t1 := (st.h + bsig1x256 st.e + chF (M32 - 1) st.e st.f st.g +
    kw.1 + kw.2) % M32
  let t2 := (bsig0x256 st.a + majF st.a st.b st.c) % M32
  ⟨(t1 + t2) % M32, st.a, st.b, st.c, (st.d + t1) % M32, st.e, st.f, st.g⟩

def compress256 (st : Hash8) (block : List Nat) : Hash8 :=
  let words := (chunks 4 16 block).map beToNat
  let ws := sched256 48 words.reverse
  let fin := (K256.zip ws).foldl (fun s kw => round256 s (kw.1, kw.2)) st
  ⟨(st.a + fin.a) % M32, (st.b + fin.b) % M32, (st.c + fin.c) % M32,
   (st.d + fin.d) % M32, (st.e + fin.e) % M32, (st.f + fin.f) % M32,
   (st.g + fin.g) % M32, (st.h + fin.h) % M32⟩

def iv256 : Hash8 :=
  ⟨1779033703, 3144134277, 1013904242, 2773480762, 1359893119, 2600822924,
   528734635, 1541459225⟩

/-- `hashlib.sha256(msg).digest()`. -/
def sha256 (msg : List Nat) : List Nat :=
  let padded := msg ++ 128 :: List.replicate ((64 - (msg.length + 9) % 64) % 64) 0
    ++ beBytes 8 (8 * msg.length)
  let st := (chunks 64 padded.length padded).foldl compress256 iv256
  beBytes 4 st.a ++ beBytes 4 st.b ++ beBytes 4 st.c ++ beBytes 4 st.d ++
    beBytes 4 st.e ++ beBytes 4 st.f ++ beBytes 4 st.g ++ beBytes 4 st.h

/-! ### SHA-512 -/

def K512 : List Nat := [4794697086780616226, 8158064640168781261,
  13096744586834688815, 16840607885511220156, 4131703408338449720,
  6480981068601479193, 10538285296894168987, 12329834152419229976,
  15566598209576043074, 1334009975649890238, 2608012711638119052,
  6128411473006802146, 8268148722764581231, 9286055187155687089,
  11230858885718282805, 13951009754708518548, 16472876342353939154,
  17275323862435702243, 1135362057144423861, 2597628984639134821,
  3308224258029322869, 5365058923640841347, 6679025012923562964,
  8573033837759648693, 10970295158949994411, 12119686244451234320,
  12683024718118986047, 13788192230050041572, 14330467153632333762,
  15395433587784984357, 489312712824947311, 1452737877330783856,
  2861767655752347644, 3322285676063803686, 5560940570517711597,
  5996557281743188959, 7280758554555802590, 8532644243296465576,
  9350256976987008742, 10552545826968843579, 11727347734174303076,
  12113106623233404929, 14000437183269869457, 14369950271660146224,
  15101387698204529176, 15463397548674623760, 17586052441742319658,
  1182934255886127544, 1847814050463011016, 2177327727835720531,
  2830643537854262169, 3796741975233480872, 4115178125766777443,
  5681478168544905931, 6601373596472566643, 7507060721942968483,
  8399075790359081724, 8693463985226723168, 9568029438360202098,
  10144078919501101548, 10430055236837252648, 11840083180663258601,
  13761210420658862357, 14299343276471374635, 14566680578165727644,
  15097957966210449927, 16922976911328602910, 17689382322260857208,
  500013540394364858, 748580250866718886, 1242879168328830382,
  1977374033974150939, 2944078676154940804, 3659926193048069267,
  4368137639120453308, 4836135668995329356, 5532061633213252278,
  6448918945643986474, 6902733635092675308, 7801388544844847127]

def bsig0x512 (x : Nat) : Nat := rotr 64 28 x ^^^ rotr 64 34 x ^^^ rotr 64 39 x

def bsig1x512 (x : Nat) : Nat := rotr 64 14 x ^^^ rotr 64 18 x ^^^ rotr 64 41 x

def ssig0x512 (x : Nat) : Nat := rotr 64 1 x ^^^ rotr 64 8 x ^^^ x / 2 ^ 7

def ssig1x512 (x : Nat) : Nat := rotr 64 19 x ^^^ rotr 64 61 x ^^^ x / 2 ^ 6

def sched512 : Nat → List Nat → List Nat
  | 0, rws => rws.reverse
  | f + 1, rws =>
    let w := (ssig1x512 (rws.getD 1 0) + rws.getD 6 0 +
      ssig0x512 (rws.getD 14 0) + rws.getD 15 0) % M64
    sched512 f (w :: rws)

def round512 (st : Hash8) (kw : Nat × Nat) : Hash8 :=
  let t1 := (st.h + bsig1x512 st.e + chF (M64 - 1) st.e st.f st.g +
    kw.1 + kw.2) % M64
  let t2 := (bsig0x512 st.a + majF st.a st.b st.c) % M64
  ⟨(t1 + t2) % M64, st.a, st.b, st.c, (st.d + t1) % M64, st.e, st.f, st.g⟩

def compress512 (st : Hash8) (block : List Nat) : Hash8 :=
  let words := (chunks 8 16 block).map beToNat
  let ws := sched512 64 words.reverse
  let fin := (K512.zip ws).foldl (fun s kw => round512 s (kw.1, kw.2)) st
  ⟨(st.a + fin.a) % M64, (st.b + fin.b) % M64, (st.c + fin.c) % M64,
   (st.d + fin.d) % M64, (st.e + fin.e) % M64, (st.f + fin.f) % M64,
   (st.g + fin.g) % M64, (st.h + fin.h) % M64⟩

def iv512 : Hash8 :=
  ⟨7640891576956012808, 13503953896175478587, 4354685564936845355,
   11912009170470909681, 5840696475078001361, 11170449401992604703,
   2270897969802886507, 6620516959819538809⟩

/-- `hashlib.sha512(msg).digest()`. -/
def sha512 (msg : List Nat) : List Nat :=
  let padded := msg ++ 128 :: List.replicate ((128 - (msg.length + 17) % 128) % 128) 0
    ++ beBytes 16 (8 * msg.length)
  let st := (chunks 128 padded.length padded).foldl compress512 iv512
  beBytes 8 st.a ++ beBytes 8 st.b ++ beBytes 8 st.c ++ beBytes 8 st.d ++
    beBytes 8 st.e ++ beBytes 8 st.f ++ beBytes 8 st.g ++ beBytes 8 st.h

/-! ### Ed25519 public-key derivation (RFC 8032 keygen; models the
`cryptography` library calls `Ed25519PrivateKey.from_private_bytes` /
`public_key` used by the source). -/

def P25519 : Nat := 2 ^ 255 - 19

def D25519 : Nat :=
  37095705934669439343138083508754565189542113879843219016388785533085940283555

/-- Little-endian encoding of `n` into `k` bytes. -/
def leBytes (k n : Nat) : List Nat :=
  (List.range k).map (fun i => n / 2 ^ (8 * i) % 256)

/-- Little-endian interpretation of a byte list. -/
def leToNat (bs : List Nat) : Nat := bs.foldr (fun b acc => acc * 256 + b) 0

def powModAux : Nat → Nat → Nat → Nat → Nat
  | 0, _, _, _ => 1
  | f + 1, b, e, m =>
    if e = 0 then 1
    else
      let r := powModAux f (b * b % m) (e / 2) m
      if e % 2 = 1 then b * r % m else r

/-- `b ^ e % m` by binary exponentiation (`e < 2 ^ 300`). -/
def powMod (b e m : Nat) : Nat := powModAux 300 (b % m) e m

def finv (x : Nat) : Nat := powMod x (P25519 - 2) P25519

/-- Extended twisted Edwards coordinates `(X, Y, Z, T)`. -/
abbrev Pt := Nat × Nat × Nat × Nat

def subP (a b : Nat) : Nat := (a + P25519 - b % P25519) % P25519

def ptAdd (p q : Pt) : Pt :=
  let a := (subP p.2.1 p.1) * (subP q.2.1 q.1) % P25519
  let b := (p.2.1 + p.1) * (q.2.1 + q.1) % P25519
  let c := p.2.2.2 * 2 % P25519 * D25519 % P25519 * q.2.2.2 % P25519
  let dd := p.2.2.1 * 2 % P25519 * q.2.2.1 % P25519
  let e := subP b a
  let f := subP dd c
  let g := (dd + c) % P25519
  let hh := (b + a) % P25519
  (e * f % P25519, g * hh % P25519, f * g % P25519, e * hh % P25519)

def smulAux : Nat → Nat → Pt → Pt → Pt
  | 0, _, _, acc => acc
  | f + 1, e, base, acc =>
    if e = 0 then acc
    else
      smulAux f (e / 2) (ptAdd base base)
        (if e % 2 = 1 then ptAdd acc base else acc)

def basePt : Pt :=
  (15112221349535400772501151409588531511454012693041857206046113283949847762202,
   46316835694926478169428394003475163141307993866256225615783033603165251855960,
   1,
   15112221349535400772501151409588531511454012693041857206046113283949847762202 *
     46316835694926478169428394003475163141307993866256225615783033603165251855960 %
     P25519)

def smulBase (e : Nat) : Pt := smulAux 300 e basePt (0, 1, 1, 0)

/-- Compress a point to its 32-byte encoding. -/
def ptCompress (p : Pt) : List Nat :=
  let zi := finv p.2.2.1
  let x := p.1 * zi % P25519
  let y := p.2.1 * zi % P25519
  leBytes 32 (y + x % 2 * 2 ^ 255)

/-- Raw 32-byte Ed25519 public key of a 32-byte private seed. -/
def ed25519_public (seed : List Nat) : List Nat :=
  let s := leToNat ((sha512 seed).take 32)
  let a := 2 ^ 254 + s % 2 ^ 254 / 8 * 8
  ptCompress (smulBase a)

/-! ### Base64 (`base64.b64encode` / `base64.b64decode`) -/

def b64alpha : List Char :=
  "ABCDEFGHIJKLMNOPQRSTUVWXYZabcdefghijklmnopqrstuvwxyz0123456789+/".data

def eqChar : Char := '='

def b64charOf (n : Nat) : Char := b64alpha.getD n '?'

/-- Index of a character in the base64 alphabet (0 when absent). -/
def b64sextet (c : Char) : Nat :=
  (b64alpha.findIdx (fun x => x == c))

/-- Core of `base64.b64encode`: three input bytes become four characters;
a short final group is completed with `=` padding. -/
def b64core : List Nat → List Char
  | b1 :: b2 :: b3 :: rest =>
    b64charOf (b1 / 4) :: b64charOf (b1 % 4 * 16 + b2 / 16) ::
      b64charOf (b2 % 16 * 4 + b3 / 64) :: b64charOf (b3 % 64) :: b64core rest
  | [b1, b2] =>
    [b64charOf (b1 / 4), b64charOf (b1 % 4 * 16 + b2 / 16),
     b64charOf (b2 % 16 * 4), eqChar]
  | [b1] => [b64charOf (b1 / 4), b64charOf (b1 % 4 * 16), eqChar, eqChar]
  | [] => []

def b64encode (bs : List Nat) : String := ⟨b64core bs⟩

/-- Decode data characters (padding already removed): full quads give three
bytes, a final pair or triple gives one or two bytes. -/
def b64dequad : List Char → List Nat
  | c1 :: c2 :: c3 :: c4 :: rest =>
    (b64sextet c1 * 4 + b64sextet c2 / 16) ::
      (b64sextet c2 % 16 * 16 + b64sextet c3 / 4) ::
      (b64sextet c3 % 4 * 64 + b64sextet c4) :: b64dequad rest
  | [c1, c2] => [b64sextet c1 * 4 + b64sextet c2 / 16]
  | [c1, c2, c3] =>
    [b64sextet c1 * 4 + b64sextet c2 / 16, b64sextet c2 % 16 * 16 + b64sextet c3 / 4]
  | _ => []

/-- `base64.b64decode` on a string: characters outside the alphabet and the
padding symbol are discarded, the total length must be a multiple of four,
and a single trailing data character is invalid. -/
def b64decodeChars (cs : List Char) : Option (List Nat) :=
  let kept := cs.filter (fun c => b64alpha.contains c || c == eqChar)
  if kept.length % 4 ≠ 0 then none
  else
    let body := kept.takeWhile (fun c => !(c == eqChar))
    if body.length % 4 == 1 then none
    else some (b64dequad body)

theorem b64alpha_ne_eqChar : ∀ c ∈ b64alpha, c ≠ eqChar := by decide

theorem b64charOf_mem {n : Nat} (h : n < 64) : b64charOf n ∈ b64alpha := by
  have hl : b64alpha.length = 64 := by decide
  rw [b64charOf, List.getD_eq_getElem _ _ (by omega)]
  exact List.getElem_mem _

theorem b64sextet_inv : ∀ n, n < 64 → b64sextet (b64charOf n) = n := by decide

/-- Structure of an encoded byte list: an alphabet-only body of determined
length followed by the padding, and decoding the body recovers the bytes. -/
theorem b64core_master (bs : List Nat) (h : isBytes bs) :
    ∃ body : List Char,
      b64core bs = body ++ List.replicate ((3 - bs.length % 3) % 3) eqChar ∧
      (∀ c ∈ body, c ∈ b64alpha) ∧
      body.length = (4 * bs.length + 2) / 3 ∧
      b64dequad body = bs := by
  induction bs using b64core.induct with
  | case1 b1 b2 b3 rest ih =>
    have hb1 : b1 < 256 := h b1 (by simp)
    have hb2 : b2 < 256 := h b2 (by simp)
    have hb3 : b3 < 256 := h b3 (by simp)
    obtain ⟨body, he, hmem, hlen, hdeq⟩ := ih (fun b hb => h b (by simp [hb]))
    refine ⟨b64charOf (b1 / 4) :: b64charOf (b1 % 4 * 16 + b2 / 16) ::
      b64charOf (b2 % 16 * 4 + b3 / 64) :: b64charOf (b3 % 64) :: body, ?_, ?_, ?_, ?_⟩
    · have hc : (3 - (rest.length + 1 + 1 + 1) % 3) % 3 = (3 - rest.length % 3) % 3 := by
        omega
      simp only [b64core, List.length_cons, he, hc, List.cons_append]
    · intro c hc
      simp only [List.mem_cons] at hc
      rcases hc with rfl | rfl | rfl | rfl | hc
      · exact b64charOf_mem (by omega)
      · exact b64charOf_mem (by omega)
      · exact b64charOf_mem (by omega)
      · exact b64charOf_mem (by omega)
      · exact hmem c hc
    · simp only [List.length_cons, hlen]
      omega
    · simp only [b64dequad, hdeq]
      rw [b64sextet_inv _ (by omega), b64sextet_inv _ (by omega),
        b64sextet_inv _ (by omega), b64sextet_inv _ (by omega)]
      have e1 : b1 / 4 * 4 + (b1 % 4 * 16 + b2 / 16) / 16 = b1 := by omega
      have e2 : (b1 % 4 * 16 + b2 / 16) % 16 * 16 + (b2 % 16 * 4 + b3 / 64) / 4 = b2 := by
        omega
      have e3 : (b2 % 16 * 4 + b3 / 64) % 4 * 64 + b3 % 64 = b3 := by omega
      rw [e1, e2, e3]
  | case2 b1 b2 =>
    have hb1 : b1 < 256 := h b1 (by simp)
    have hb2 : b2 < 256 := h b2 (by simp)
    refine ⟨[b64charOf (b1 / 4), b64charOf (b1 % 4 * 16 + b2 / 16),
      b64charOf (b2 % 16 * 4)], rfl, ?_, by simp, ?_⟩
    · intro c hc
      simp only [List.mem_cons, List.not_mem_nil, or_false] at hc
      rcases hc with rfl | rfl | rfl
      · exact b64charOf_mem (by omega)
      · exact b64charOf_mem (by omega)
      · exact b64charOf_mem (by omega)
    · simp only [b64dequad]
      rw [b64sextet_inv _ (by omega), b64sextet_inv _ (by omega),
        b64sextet_inv _ (by omega)]
      have e1 : b1 / 4 * 4 + (b1 % 4 * 16 + b2 / 16) / 16 = b1 := by omega
      have e2 : (b1 % 4 * 16 + b2 / 16) % 16 * 16 + b2 % 16 * 4 / 4 = b2 := by omega
      rw [e1, e2]
  | case3 b1 =>
    have hb1 : b1 < 256 := h b1 (by simp)
    refine ⟨[b64charOf (b1 / 4), b64charOf (b1 % 4 * 16)], rfl, ?_, by simp, ?_⟩
    · intro c hc
      simp only [List.mem_cons, List.not_mem_nil, or_false] at hc
      rcases hc with rfl | rfl
      · exact b64charOf_mem (by omega)
      · exact b64charOf_mem (by omega)
    · simp only [b64dequad]
      rw [b64sextet_inv _ (by omega), b64sextet_inv _ (by omega)]
      have e1 : b1 / 4 * 4 + b1 % 4 * 16 / 16 = b1 := by omega
      rw [e1]
  | case4 => exact ⟨[], rfl, by simp, by simp, rfl⟩

theorem takeWhile_body_pad (body : List Char) (k : Nat)
    (hb : ∀ c ∈ body, c ∈ b64alpha) :
    (body ++ List.replicate k eqChar).takeWhile (fun c => !(c == eqChar)) = body := by
  induction body with
  | nil =>
    cases k with
    | zero => rfl
    | succ m => simp [List.replicate_succ, List.takeWhile_cons]
  | cons c rest ih =>
    have hc : c ≠ eqChar := b64alpha_ne_eqChar c (hb c (by simp))
    simp only [List.cons_append, List.takeWhile_cons]
    rw [if_pos (by simp [hc])]
    rw [ih (fun x hx => hb x (by simp [hx]))]

/-- Round-trip: decoding an encoded byte list recovers the bytes. -/
theorem b64decode_encode (bs : List Nat) (h : isBytes bs) :
    b64decodeChars (b64core bs) = some bs := by
  obtain ⟨body, he, hmem, hlen, hdeq⟩ := b64core_master bs h
  have hkeep : (b64core bs).filter (fun c => b64alpha.contains c || c == eqChar) =
      b64core bs := by
    rw [List.filter_eq_self]
    intro c hc
    rw [he] at hc
    rcases List.mem_append.mp hc with hc | hc
    · simp only [Bool.or_eq_true]
      exact Or.inl (List.elem_eq_true_of_mem (hmem c hc))
    · have hce : c = eqChar := List.eq_of_mem_replicate hc
      simp [hce]
  have h3 : bs.length % 3 = 0 ∨ bs.length % 3 = 1 ∨ bs.length % 3 = 2 := by omega
  have hlen4 : (b64core bs).length % 4 = 0 := by
    rw [he, List.length_append, hlen, List.length_replicate]
    rcases h3 with h3 | h3 | h3 <;> omega
  have htake : (b64core bs).takeWhile (fun c => !(c == eqChar)) = body := by
    rw [he]; exact takeWhile_body_pad body _ hmem
  have hmod : body.length % 4 ≠ 1 := by
    rw [hlen]
    rcases h3 with h3 | h3 | h3 <;> omega
  simp only [b64decodeChars, hkeep, hlen4]
  rw [if_neg (by omega)]
  rw [htake]
  rw [if_neg (by simpa using hmod)]
  rw [hdeq]

/-! ### HD derivation (`crypto/derivation.py`) -/

def strBytes (s : String) : List Nat := s.data.map Char.toNat

/-- Protocol version identifier (`DERIVATION_CONTEXT = b"vanikeys-ssh-v1"`). -/
def DERIVATION_CONTEXT : List Nat := strBytes "vanikeys-ssh-v1"

/-- `hashlib` streaming interface: a hash object accumulates updates. -/
def hashlibInit : List Nat := []

def hashlibUpdate (st data : List Nat) : List Nat := st ++ data

/-- `derive_child_seed`: streaming SHA-512 of
parent seed, context, big-endian index; first 32 bytes. -/
def derive_child_seed (parent_seed : List Nat) (path_index : Nat) : List Nat :=
  let index_bytes := beBytes 4 path_index
  let h0 := hashlibInit
  let h1 := hashlibUpdate h0 parent_seed
  let h2 := hashlibUpdate h1 DERIVATION_CONTEXT
  let h3 := hashlibUpdate h2 index_bytes
  (sha512 h3).take 32

/-- `seed_to_root_keypair`: private key is the seed, public key derived. -/
def seed_to_root_keypair (seed : List Nat) : List Nat × List Nat :=
  (seed, ed25519_public seed)

/-- `derive_child_keypair`. -/
def derive_child_keypair (parent_seed : List Nat) (path_index : Nat) :
    List Nat × List Nat :=
  seed_to_root_keypair (derive_child_seed parent_seed path_index)

def public_key_to_bytes (pub : List Nat) : List Nat := pub

/-! ### SSH fingerprints (`crypto/fingerprint.py`) -/

/-- SSH string encoding: 4-byte big-endian length then the data. -/
def sshString (d : List Nat) : List Nat := beBytes 4 d.length ++ d

/-- `ssh_public_key_to_bytes`: wire format of an Ed25519 public key. -/
def ssh_public_key_to_bytes (pub : List Nat) : List Nat :=
  sshString (strBytes "ssh-ed25519") ++ sshString pub

/-- `.rstrip("=")`. -/
def rstripEq (s : String) : String :=
  ⟨(s.data.reverse.dropWhile (fun c => c == eqChar)).reverse⟩

/-- `compute_ssh_fingerprint`. -/
def compute_ssh_fingerprint (pub : List Nat) : String :=
  let wire_bytes := ssh_public_key_to_bytes pub
  let digest := sha256 wire_bytes
  let b64 := rstripEq (b64encode digest)
  "SHA256:" ++ b64

/-- Python `s.startswith(p)`, at character level. -/
def strStartsWith (s p : String) : Bool := p.data.isPrefixOf s.data

/-- Python `s[n:]`, at character level. -/
def strDropChars (s : String) (n : Nat) : String := ⟨s.data.drop n⟩

/-- `extract_fingerprint_searchable`. -/
def extract_fingerprint_searchable (fp : String) : String :=
  if strStartsWith fp "SHA256:" then strDropChars fp 7 else fp

/-! ### Digest shape lemmas -/

theorem beBytes_length (k n : Nat) : (beBytes k n).length = k := by
  simp [beBytes]

theorem beBytes_lt (k n : Nat) : ∀ b ∈ beBytes k n, b < 256 := by
  intro b hb
  simp only [beBytes, List.mem_map] at hb
  obtain ⟨i, _, rfl⟩ := hb
  exact Nat.mod_lt _ (by norm_num)

theorem leBytes_length (k n : Nat) : (leBytes k n).length = k := by
  simp [leBytes]

theorem leBytes_lt (k n : Nat) : ∀ b ∈ leBytes k n, b < 256 := by
  intro b hb
  simp only [leBytes, List.mem_map] at hb
  obtain ⟨i, _, rfl⟩ := hb
  exact Nat.mod_lt _ (by norm_num)

theorem sha256_length (msg : List Nat) : (sha256 msg).length = 32 := by
  simp [sha256, beBytes_length]

theorem sha256_isBytes (msg : List Nat) : isBytes (sha256 msg) := by
  intro b hb
  simp only [sha256, List.append_assoc, List.mem_append] at hb
  rcases hb with hb | hb | hb | hb | hb | hb | hb | hb <;>
    exact beBytes_lt _ _ b hb

theorem ed25519_public_length (s : List Nat) : (ed25519_public s).length = 32 := by
  simp [ed25519_public, ptCompress, leBytes_length]

theorem ed25519_public_isBytes (s : List Nat) : isBytes (ed25519_public s) := by
  intro b hb
  simp only [ed25519_public, ptCompress] at hb
  exact leBytes_lt _ _ b hb

/-! ### Claim C1 -/

/-- C1 spec-side formula: first 32 bytes of the one-shot SHA-512 of
`parentSeed ++ DERIVATION_CONTEXT ++ big-endian-4(index)`. -/
def spec_childSeed (parentSeed : List Nat) (index : Nat) : List Nat :=
  (sha512 (parentSeed ++ DERIVATION_CONTEXT ++ beBytes 4 index)).take 32

/-- C1: for every 32-byte parent seed and index below `2 ^ 32`, the child
seed is the first 32 bytes of SHA-512 of parent, context and big-endian
index, and the child key pair is the root key pair of that child seed. -/
theorem childSeed_matches_spec (parentSeed : List Nat) (index : Nat)
    (h1 : parentSeed.length = 32) (h2 : index < 2 ^ 32) :
    derive_child_seed parentSeed index = spec_childSeed parentSeed index ∧
    derive_child_keypair parentSeed index =
      seed_to_root_keypair (derive_child_seed parentSeed index) := by
  constructor
  · simp [derive_child_seed, spec_childSeed, hashlibInit, hashlibUpdate,
      List.append_assoc]
  · rfl

/-- Witness for C1 at a concrete seed and index. -/
theorem childSeed_matches_spec_witness :
    (List.replicate 32 0).length = 32 ∧ 5 < 2 ^ 32 ∧
      (derive_child_seed (List.replicate 32 0) 5 =
        spec_childSeed (List.replicate 32 0) 5 ∧
      derive_child_keypair (List.replicate 32 0) 5 =
        seed_to_root_keypair (derive_child_seed (List.replicate 32 0) 5)) :=
  ⟨by simp, by norm_num,
    childSeed_matches_spec (List.replicate 32 0) 5 (by simp) (by norm_num)⟩

/-! ### Claim C6 -/

/-- C6 spec-side formula: `"SHA256:"` followed by the padding-stripped
base64 of the SHA-256 of the wire encoding. -/
def spec_fingerprint (pub : List Nat) : String :=
  "SHA256:" ++ rstripEq (b64encode (sha256 (ssh_public_key_to_bytes pub)))

theorem dropWhile_replicate_append (p : Char → Bool) (k : Nat) (x : Char)
    (l : List Char) (hx : p x = true) :
    (List.replicate k x ++ l).dropWhile p = l.dropWhile p := by
  induction k with
  | zero => rfl
  | succ m ih => simp [List.replicate_succ, List.dropWhile_cons, hx, ih]

theorem rstrip_of_body_pad (body : List Char) (k : Nat)
    (hmem : ∀ c ∈ body, c ∈ b64alpha) :
    rstripEq ⟨body ++ List.replicate k eqChar⟩ = ⟨body⟩ := by
  unfold rstripEq
  simp only [List.reverse_append, List.reverse_replicate]
  rw [dropWhile_replicate_append _ _ _ _ (by simp)]
  have hdrop : body.reverse.dropWhile (fun c => c == eqChar) = body.reverse := by
    cases hrev : body.reverse with
    | nil => rfl
    | cons c t =>
      have hcmem : c ∈ body := by
        have : c ∈ body.reverse := by rw [hrev]; simp
        simpa using this
      have : c ≠ eqChar := b64alpha_ne_eqChar c (hmem c hcmem)
      simp [List.dropWhile_cons, this]
  rw [hdrop]
  simp

/-- Payload structure of a fingerprint of any 32-byte digest input. -/
theorem fingerprint_payload (pub : List Nat) :
    ∃ body : List Char,
      compute_ssh_fingerprint pub = "SHA256:" ++ ⟨body⟩ ∧
      body.length = 43 ∧ ∀ c ∈ body, c ∈ b64alpha := by
  obtain ⟨body, he, hmem, hlen, _⟩ :=
    b64core_master (sha256 (ssh_public_key_to_bytes pub))
      (sha256_isBytes _)
  rw [sha256_length] at he hlen
  refine ⟨body, ?_, by rw [hlen], hmem⟩
  simp only [compute_ssh_fingerprint, b64encode]
  rw [he, rstrip_of_body_pad body _ hmem]

/-- C6: the fingerprint equals the spec formula, always has length 50 with
the `"SHA256:"` prefix, and its payload contains no padding character. -/
theorem fingerprint_matches_spec (pub : List Nat) (h : pub.length = 32) :
    compute_ssh_fingerprint pub = spec_fingerprint pub ∧
    (compute_ssh_fingerprint pub).length = 50 ∧
    strStartsWith (compute_ssh_fingerprint pub) "SHA256:" = true ∧
    ∀ c ∈ (compute_ssh_fingerprint pub).data.drop 7, c ≠ eqChar := by
  obtain ⟨body, he, hlen, hmem⟩ := fingerprint_payload pub
  refine ⟨rfl, ?_, ?_, ?_⟩
  · rw [he, String.length_append]
    rw [show ("SHA256:").length = 7 from rfl]
    rw [show (String.mk body).length = body.length from rfl, hlen]
  · rw [he]
    unfold strStartsWith
    rw [String.data_append, List.isPrefixOf_iff_prefix]
    exact List.prefix_append _ _
  · intro c hc
    rw [he, String.data_append] at hc
    rw [show (7 : Nat) = ("SHA256:").data.length from rfl] at hc
    rw [List.drop_left] at hc
    exact b64alpha_ne_eqChar c (hmem c hc)

/-- Witness for C6 at a concrete public key. -/
theorem fingerprint_matches_spec_witness :
    (List.replicate 32 7).length = 32 ∧
      (compute_ssh_fingerprint (List.replicate 32 7) =
          spec_fingerprint (List.replicate 32 7) ∧
        (compute_ssh_fingerprint (List.replicate 32 7)).length = 50 ∧
        strStartsWith (compute_ssh_fingerprint (List.replicate 32 7)) "SHA256:" = true ∧
        ∀ c ∈ (compute_ssh_fingerprint (List.replicate 32 7)).data.drop 7,
          c ≠ eqChar) :=
  ⟨by simp, fingerprint_matches_spec (List.replicate 32 7) (by simp)⟩

theorem sha512_length (msg : List Nat) : (sha512 msg).length = 64 := by
  simp [sha512, beBytes_length]

theorem derive_child_seed_length (p : List Nat) (i : Nat) :
    (derive_child_seed p i).length = 32 := by
  simp [derive_child_seed, hashlibUpdate, hashlibInit, sha512_length]

/-! ### Python value model for the proof protocol (`crypto/proofs.py`) -/

inductive PyVal where
  | none
  | bool (b : Bool)
  | int (n : Int)
  | str (s : String)
  | list (l : List PyVal)
  | dict (d : List (String × PyVal))

inductive PyErr where
  | keyError (k : String)
  | valueError (m : String)
  | typeError (m : String)
  | attributeError (m : String)
  | assertionError (m : String)
deriving DecidableEq

/-- Python `==` on the values the verifier actually compares (scalars; a
string compared with a non-string is unequal, not an error).  Container
comparisons never occur on the embedded code paths and are conservatively
false. -/
def pyEqB : PyVal → PyVal → Bool
  | .none, .none => true
  | .bool a, .bool b => a == b
  | .int a, .int b => a == b
  | .str a, .str b => a == b
  | _, _ => false

/-- Python truthiness. -/
def pyTruthy : PyVal → Bool
  | .none => false
  | .bool b => b
  | .int n => !(n == 0)
  | .str s => !(s == "")
  | .list l => !l.isEmpty
  | .dict d => !d.isEmpty

def lookupAssoc {α : Type} : List (String × α) → String → Option α
  | [], _ => Option.none
  | (k0, v) :: rest, k => if k0 = k then some v else lookupAssoc rest k

/-- Python dict assignment `d[k] = x` (overwrites in place, else appends). -/
def setAssoc {α : Type} : List (String × α) → String → α → List (String × α)
  | [], k, x => [(k, x)]
  | (k0, v0) :: rest, k, x =>
    if k0 = k then (k, x) :: rest else (k0, v0) :: setAssoc rest k x

/-- Python `v[k]` with a string key. -/
def dictGet (v : PyVal) (k : String) : Except PyErr PyVal :=
  match v with
  | .dict d =>
    match lookupAssoc d k with
    | some x => .ok x
    | Option.none => .error (.keyError k)
  | .str _ => .error (.typeError "string indices must be integers")
  | _ => .error (.typeError "object is not subscriptable")

/-- Python substring test `needle in hay`. -/
def strContainsList (hay needle : List Char) : Bool :=
  (List.range (hay.length + 1)).any (fun i => needle.isPrefixOf (hay.drop i))

def strContains (hay needle : String) : Bool := strContainsList hay.data needle.data

/-- Python `k in v`. -/
def pyContains (v : PyVal) (k : String) : Except PyErr Bool :=
  match v with
  | .dict d => .ok (lookupAssoc d k).isSome
  | .str s => .ok (strContains s k)
  | .list l => .ok (l.any (fun x => pyEqB x (.str k)))
  | _ => .error (.typeError "argument is not iterable")

/-- Python `v.get(k, dflt)`. -/
def pyGetD (v : PyVal) (k : String) (dflt : PyVal) : Except PyErr PyVal :=
  match v with
  | .dict d => .ok ((lookupAssoc d k).getD dflt)
  | _ => .error (.attributeError "get")

/-- Python `v.lower()` requires a string. -/
def pyAsStr (v : PyVal) : Except PyErr String :=
  match v with
  | .str s => .ok s
  | _ => .error (.attributeError "lower")

/-- `extract_fingerprint_searchable` applied to an arbitrary value
(`startswith` fails on non-strings). -/
def pyExtractSearchable (v : PyVal) : Except PyErr String :=
  match v with
  | .str s => .ok (extract_fingerprint_searchable s)
  | _ => .error (.attributeError "startswith")

/-- `base64.b64decode` on a string. -/
def b64decode (s : String) : Except PyErr (List Nat) :=
  match b64decodeChars s.data with
  | some bs => .ok bs
  | Option.none => .error (.valueError "Invalid base64-encoded string")

def b64decodeVal (v : PyVal) : Except PyErr (List Nat) :=
  match v with
  | .str s => b64decode s
  | _ => .error (.typeError "argument should be a bytes-like object")

/-- The index value must compare in range (assertions in
`derive_child_seed`; a bool is an int in Python). -/
def pyIndexCheck (v : PyVal) : Except PyErr Nat :=
  match v with
  | .int n =>
    if 0 ≤ n ∧ n < 2 ^ 32 then .ok n.toNat
    else .error (.assertionError "Path index must be in range")
  | .bool b => .ok (if b then 1 else 0)
  | _ => .error (.typeError "unsupported comparison between int and non-int")

/-- `derive_child_seed` with its assertions. -/
def derive_child_seedE (parent : List Nat) (idxv : PyVal) :
    Except PyErr (List Nat) :=
  if parent.length ≠ 32 then .error (.assertionError "Parent seed must be 32 bytes")
  else
    match pyIndexCheck idxv with
    | .error e => .error e
    | .ok n => .ok (derive_child_seed parent n)

/-- `seed_to_root_keypair` with its assertion. -/
def seed_to_root_keypairE (seed : List Nat) :
    Except PyErr (List Nat × List Nat) :=
  if seed.length ≠ 32 then .error (.assertionError "Seed must be exactly 32 bytes")
  else .ok (seed_to_root_keypair seed)

/-- `derive_child_keypair` with its assertions. -/
def derive_child_keypairE (parent : List Nat) (idxv : PyVal) :
    Except PyErr (List Nat × List Nat) :=
  match derive_child_seedE parent idxv with
  | .error e => .error e
  | .ok cs => seed_to_root_keypairE cs

/-- `generate_derivation_proof` (keys given as their raw bytes). -/
def generate_derivation_proof (root_public_bytes : List Nat) (path_index : Nat)
    (child_public_bytes : List Nat) : PyVal :=
  let derivation_hash :=
    sha256 (root_public_bytes ++ beBytes 4 path_index ++ DERIVATION_CONTEXT)
  .dict [("path_index", .int path_index),
    ("root_public_key", .str (b64encode root_public_bytes)),
    ("child_public_key", .str (b64encode child_public_bytes)),
    ("derivation_hash", .str (b64encode derivation_hash)),
    ("algorithm", .str "ed25519"),
    ("context", .str "vanikeys-ssh-v1")]

/-- Errors caught by `except (KeyError, ValueError, TypeError)`. -/
def catchable : PyErr → Bool
  | .keyError _ => true
  | .valueError _ => true
  | .typeError _ => true
  | _ => false

/-- The `try` body of `verify_derivation_proof`. -/
def verify_derivation_proof_checks (proof : PyVal) (master_seed : List Nat) :
    Except PyErr Bool := do
  let path_index ← dictGet proof "path_index"
  let claimed_child_public ← b64decodeVal (← dictGet proof "child_public_key")
  let claimed_derivation_hash ← b64decodeVal (← dictGet proof "derivation_hash")
  let actual ← derive_child_keypairE master_seed path_index
  if actual.2 ≠ claimed_child_public then
    pure false
  else do
    let rootkp ← seed_to_root_keypairE master_seed
    let n ← pyIndexCheck path_index
    let expected := sha256 (rootkp.2 ++ beBytes 4 n ++ DERIVATION_CONTEXT)
    if expected ≠ claimed_derivation_hash then pure false else pure true

/-- `verify_derivation_proof`: decode/compare, catching format errors. -/
def verify_derivation_proofE (proof : PyVal) (master_seed : List Nat) :
    Except PyErr Bool :=
  match verify_derivation_proof_checks proof master_seed with
  | .ok b => .ok b
  | .error e => if catchable e then .ok false else .error e

/-- `generate_order_proof`. -/
def generate_order_proof (root_public_bytes : List Nat) (path_index : Nat)
    (child_public_bytes : List Nat) (pattern : String) (fingerprint : String) :
    PyVal :=
  let derivation_proof :=
    generate_derivation_proof root_public_bytes path_index child_public_bytes
  let searchable := extract_fingerprint_searchable fingerprint
  let pattern_found := strContains searchable.toLower pattern.toLower
  .dict [("derivation", derivation_proof),
    ("pattern_match", .dict [("pattern", .str pattern),
      ("fingerprint", .str fingerprint),
      ("searchable_portion", .str searchable),
      ("pattern_found", .bool pattern_found),
      ("case_sensitive", .bool false)]),
    ("version", .str "vanikeys-v1")]

structure OrderVerifyResult where
  valid : Bool
  derivation_valid : Bool
  fingerprint_valid : Bool
  pattern_valid : Bool
  fingerprint : String
  errors : List String
deriving DecidableEq

/-- `verify_order_proof` (exceptions from missing fields or bad indices
propagate: the source has no handler here). -/
def verify_order_proofE (proof : PyVal) (master_seed : List Nat)
    (expected_pattern : String) : Except PyErr OrderVerifyResult := do
  let derivP ← dictGet proof "derivation"
  let derivation_valid ← verify_derivation_proofE derivP master_seed
  let errors0 : List String :=
    if derivation_valid then [] else ["Derivation proof invalid"]
  let pattern_proof ← dictGet proof "pattern_match"
  let fingerprintV ← dictGet pattern_proof "fingerprint"
  let patternV ← dictGet pattern_proof "pattern"
  let derivP2 ← dictGet proof "derivation"
  let path_index ← dictGet derivP2 "path_index"
  let derived ← derive_child_keypairE master_seed path_index
  let computed_fingerprint := compute_ssh_fingerprint derived.2
  let fingerprint_valid := pyEqB (.str computed_fingerprint) fingerprintV
  let errors1 := errors0 ++ (if fingerprint_valid then [] else ["Fingerprint mismatch"])
  let patternS ← pyAsStr patternV
  let searchable := extract_fingerprint_searchable computed_fingerprint
  let pattern_found := strContains searchable.toLower patternS.toLower
  let errors2 := errors1 ++
    (if pattern_found then [] else ["Pattern not found in fingerprint: " ++ patternS])
  let cond := patternS.toLower == expected_pattern.toLower
  let errors3 := errors2 ++
    (if cond then []
     else ["Pattern mismatch: expected " ++ expected_pattern ++ ", got " ++ patternS])
  let pattern_valid := pattern_found && cond
  let valid := derivation_valid && fingerprint_valid && pattern_valid
  pure ⟨valid, derivation_valid, fingerprint_valid, pattern_valid,
    computed_fingerprint, errors3⟩

def pyErrMsg : PyErr → String
  | .keyError k => k
  | .valueError m => m
  | .typeError m => m
  | .attributeError m => m
  | .assertionError m => m

def checksToPy (l : List (String × Bool)) : PyVal :=
  .dict (l.map (fun p => (p.1, .bool p.2)))

def getCheck : List (String × Bool) → String → Bool
  | [], _ => false
  | (k0, b) :: rest, k => if k0 = k then b else getCheck rest k

/-- Result of the `except` handler in `verify_order_proof_passwordless`:
the checks accumulated so far with `structure` forced false. -/
def pwFormatInvalid (e : PyErr) (errors : List String)
    (checks : List (String × Bool)) : PyVal :=
  .dict [("valid", .bool false),
    ("checks", checksToPy (setAssoc checks "structure" false)),
    ("errors", .list ((errors ++ ["Proof format invalid: " ++ pyErrMsg e]).map .str))]

/-- Run a step inside the passwordless `try`: caught errors produce the
format-invalid result with the checks and errors accumulated so far. -/
def orCaught {α : Type} (r : Except PyErr α) (errors : List String)
    (checks : List (String × Bool)) (k : α → Except PyErr PyVal) :
    Except PyErr PyVal :=
  match r with
  | .ok a => k a
  | .error e => if catchable e then .ok (pwFormatInvalid e errors checks) else .error e

/-- `verify_order_proof_passwordless`. -/
def verify_order_proof_passwordlessE (proof : PyVal)
    (root_public_bytes : List Nat) : Except PyErr PyVal :=
  orCaught (pyContains proof "derivation") [] [] fun hasD =>
  if !hasD then
    .ok (.dict [("valid", .bool false),
      ("checks", checksToPy [("structure", false)]),
      ("errors", .list [.str "Missing derivation in proof"])])
  else
  orCaught (pyContains proof "pattern_match") [] [] fun hasP =>
  if !hasP then
    .ok (.dict [("valid", .bool false),
      ("checks", checksToPy [("structure", false)]),
      ("errors", .list [.str "Missing pattern_match in proof"])])
  else
  orCaught (dictGet proof "derivation") [] [] fun deriv_proof =>
  orCaught (dictGet proof "pattern_match") [] [] fun pattern_match =>
  orCaught (dictGet deriv_proof "root_public_key") [] [] fun rpk =>
  orCaught (b64decodeVal rpk) [] [] fun claimed_root =>
  let rkm := claimed_root == root_public_bytes
  let checks1 := setAssoc [] "root_key_match" rkm
  let errors1 : List String := if rkm then [] else ["Root public key mismatch"]
  orCaught (pyGetD pattern_match "fingerprint" (.str "")) errors1 checks1
    fun fingerprintV =>
  orCaught (pyGetD pattern_match "pattern" (.str "")) errors1 checks1
    fun patternV =>
  if !(pyTruthy fingerprintV) || !(pyTruthy patternV) then
    .ok (.dict [("valid", .bool false),
      ("checks", checksToPy (setAssoc checks1 "structure" false)),
      ("fingerprint", fingerprintV),
      ("errors", .list ((errors1 ++ ["Missing fingerprint or pattern in proof"]).map .str))])
  else
  let checks2 := setAssoc checks1 "structure" true
  orCaught (pyExtractSearchable fingerprintV) errors1 checks2 fun searchable =>
  orCaught (pyAsStr patternV) errors1 checks2 fun patternS =>
  let pattern_found := strContains searchable.toLower patternS.toLower
  let checks3 := setAssoc checks2 "pattern_match" pattern_found
  let errors2 := errors1 ++
    (if pattern_found then [] else ["Pattern not found in fingerprint: " ++ patternS])
  orCaught (pyContains deriv_proof "derivation_hash") errors2 checks3 fun hasHash =>
  let checks4 := setAssoc checks3 "derivation_hash_present" hasHash
  let errors3 := errors2 ++
    (if hasHash then [] else ["Missing derivation_hash in proof"])
  let valid := getCheck checks4 "root_key_match" && getCheck checks4 "structure" &&
    getCheck checks4 "pattern_match" && getCheck checks4 "derivation_hash_present"
  .ok (.dict [("valid", .bool valid),
    ("checks", checksToPy checks4),
    ("fingerprint", fingerprintV),
    ("match", .bool pattern_found),
    ("errors", .list (errors3.map .str))])

/-- Python `d[k] = x` on a proof value (used to express tampering). -/
def setDictField (v : PyVal) (k : String) (x : PyVal) : PyVal :=
  match v with
  | .dict d => .dict (setAssoc d k x)
  | _ => v

def zeroSeed : List Nat := List.replicate 32 0

def oneSeed : List Nat := List.replicate 32 1

/-! ### Claims C7 and C10: verification ignores self-reported fields -/

/-- A well-formed order proof with every field value explicit. -/
def mkOrderProofDict (pi rpk cpk dh alg ctx pat fp sp pf cs ver : PyVal) : PyVal :=
  .dict [("derivation", .dict [("path_index", pi), ("root_public_key", rpk),
    ("child_public_key", cpk), ("derivation_hash", dh), ("algorithm", alg),
    ("context", ctx)]),
    ("pattern_match", .dict [("pattern", pat), ("fingerprint", fp),
      ("searchable_portion", sp), ("pattern_found", pf), ("case_sensitive", cs)]),
    ("version", ver)]

/-- C7: passwordless verification is independent of the derivation hash
value — two well-formed order proofs that differ only in the value of the
`derivation_hash` field produce identical results (same valid verdict and
the same per-check results) for every root public key. -/
theorem passwordless_ignores_hash_value
    (pi rpk cpk dh1 dh2 alg ctx pat fp sp pf cs ver : PyVal)
    (root : List Nat) :
    verify_order_proof_passwordlessE
        (mkOrderProofDict pi rpk cpk dh1 alg ctx pat fp sp pf cs ver) root =
      verify_order_proof_passwordlessE
        (mkOrderProofDict pi rpk cpk dh2 alg ctx pat fp sp pf cs ver) root := by
  rfl

/-- C10: `verify_order_proof` recomputes everything it judges, so two order
proofs that differ only in the self-reported `pattern_found`,
`searchable_portion` or `case_sensitive` fields yield identical verification
results for every seed and expected pattern. -/
theorem order_verify_ignores_match_record
    (pi rpk cpk dh alg ctx pat fp sp1 pf1 cs1 sp2 pf2 cs2 ver : PyVal)
    (seed : List Nat) (expected : String) :
    verify_order_proofE
        (mkOrderProofDict pi rpk cpk dh alg ctx pat fp sp1 pf1 cs1 ver) seed expected =
      verify_order_proofE
        (mkOrderProofDict pi rpk cpk dh alg ctx pat fp sp2 pf2 cs2 ver) seed expected := by
  rfl

/-! ### Claim C2 -/

theorem b64decode_encode_str (bs : List Nat) (h : isBytes bs) :
    b64decode (b64encode bs) = .ok bs := by
  unfold b64decode
  rw [show (b64encode bs).data = b64core bs from rfl, b64decode_encode bs h]

theorem pyIndexCheck_nat (idx : Nat) (h : idx < 2 ^ 32) :
    pyIndexCheck (.int (idx : Int)) = .ok idx := by
  have h0 : (0 : Int) ≤ (idx : Int) := Int.ofNat_nonneg idx
  have hlt : (idx : Int) < 2 ^ 32 := by exact_mod_cast h
  simp [pyIndexCheck, h0, hlt]
  omega

theorem seed_to_root_keypairE_ok (seed : List Nat) (h : seed.length = 32) :
    seed_to_root_keypairE seed = .ok (seed_to_root_keypair seed) := by
  unfold seed_to_root_keypairE
  rw [if_neg (by omega)]

theorem derive_child_keypairE_nat (seed : List Nat) (idx : Nat)
    (h1 : seed.length = 32) (h2 : idx < 2 ^ 32) :
    derive_child_keypairE seed (.int idx) = .ok (derive_child_keypair seed idx) := by
  unfold derive_child_keypairE derive_child_seedE
  rw [if_neg (by omega), pyIndexCheck_nat idx h2]
  exact seed_to_root_keypairE_ok _ (derive_child_seed_length seed idx)

/-- Pipeline shape of `verify_derivation_proof` on a well-formed proof
dict, with every decode and derivation step given by hypothesis. -/
theorem verify_checks_spec (idxv cpkv dhv rpkv algv ctxv : PyVal)
    (seed : List Nat) (cb dh : List Nat)
    (hc : b64decodeVal cpkv = .ok cb)
    (hh : b64decodeVal dhv = .ok dh)
    (kp : List Nat × List Nat)
    (hd : derive_child_keypairE seed idxv = .ok kp)
    (rkp : List Nat × List Nat) (hr : seed_to_root_keypairE seed = .ok rkp)
    (n : Nat) (hn : pyIndexCheck idxv = .ok n) :
    verify_derivation_proofE (.dict [("path_index", idxv),
      ("root_public_key", rpkv), ("child_public_key", cpkv),
      ("derivation_hash", dhv), ("algorithm", algv), ("context", ctxv)]) seed =
    .ok (if kp.2 = cb then
          (if sha256 (rkp.2 ++ beBytes 4 n ++ DERIVATION_CONTEXT) = dh
           then true else false)
         else false) := by
  simp [verify_derivation_proofE, verify_derivation_proof_checks,
    dictGet, lookupAssoc, bind, Except.instMonad, Except.bind, pure, Except.pure,
    hc, hh, hd, hr, hn]
  by_cases hq : kp.2 = cb
  · by_cases hs : sha256 (rkp.2 ++ (beBytes 4 n ++ DERIVATION_CONTEXT)) = dh
    · simp [hq, hs]
    · simp [hq, hs]
  · simp [hq]

/-- C2 (amended): a derivation proof generated from a seed root, an index
and the honestly derived child verifies true against that seed; it verifies
false when the child key is replaced by a different value, when the index
is replaced by another in-range index whose derived child differs, or when
it is checked against another seed whose derived child differs. -/
theorem derivation_proof_verify_tamper (seed : List Nat) (idx : Nat)
    (h1 : seed.length = 32) (h2 : idx < 2 ^ 32) :
    verify_derivation_proofE
        (generate_derivation_proof (ed25519_public seed) idx
          (derive_child_keypair seed idx).2) seed = .ok true ∧
    (∀ c2 : List Nat, isBytes c2 → c2 ≠ (derive_child_keypair seed idx).2 →
      verify_derivation_proofE
        (setDictField
          (generate_derivation_proof (ed25519_public seed) idx
            (derive_child_keypair seed idx).2)
          "child_public_key" (.str (b64encode c2))) seed = .ok false) ∧
    (∀ idx2 : Nat, idx2 < 2 ^ 32 →
      (derive_child_keypair seed idx2).2 ≠ (derive_child_keypair seed idx).2 →
      verify_derivation_proofE
        (setDictField
          (generate_derivation_proof (ed25519_public seed) idx
            (derive_child_keypair seed idx).2)
          "path_index" (.int (idx2 : Int))) seed = .ok false) ∧
    (∀ seed2 : List Nat, seed2.length = 32 →
      (derive_child_keypair seed2 idx).2 ≠ (derive_child_keypair seed idx).2 →
      verify_derivation_proofE
        (generate_derivation_proof (ed25519_public seed) idx
          (derive_child_keypair seed idx).2) seed2 = .ok false) := by
  have hcb : isBytes (derive_child_keypair seed idx).2 :=
    ed25519_public_isBytes (derive_child_seed seed idx)
  have hhb : isBytes (sha256 (ed25519_public seed ++ beBytes 4 idx ++
      DERIVATION_CONTEXT)) := sha256_isBytes _
  refine ⟨?_, ?_, ?_, ?_⟩
  · rw [show generate_derivation_proof (ed25519_public seed) idx
        (derive_child_keypair seed idx).2 = PyVal.dict
        [("path_index", .int (idx : Int)),
         ("root_public_key", .str (b64encode (ed25519_public seed))),
         ("child_public_key", .str (b64encode (derive_child_keypair seed idx).2)),
         ("derivation_hash", .str (b64encode (sha256 (ed25519_public seed ++
           beBytes 4 idx ++ DERIVATION_CONTEXT)))),
         ("algorithm", .str "ed25519"),
         ("context", .str "vanikeys-ssh-v1")] from rfl]
    rw [verify_checks_spec (.int (idx : Int))
      (.str (b64encode (derive_child_keypair seed idx).2))
      (.str (b64encode (sha256 (ed25519_public seed ++ beBytes 4 idx ++
        DERIVATION_CONTEXT))))
      (.str (b64encode (ed25519_public seed))) (.str "ed25519")
      (.str "vanikeys-ssh-v1") seed
      (derive_child_keypair seed idx).2
      (sha256 (ed25519_public seed ++ beBytes 4 idx ++ DERIVATION_CONTEXT))
      (b64decode_encode_str _ hcb) (b64decode_encode_str _ hhb)
      (derive_child_keypair seed idx) (derive_child_keypairE_nat seed idx h1 h2)
      (seed_to_root_keypair seed) (seed_to_root_keypairE_ok seed h1)
      idx (pyIndexCheck_nat idx h2)]
    simp [seed_to_root_keypair]
  · intro c2 hb2 hne
    rw [show setDictField
        (generate_derivation_proof (ed25519_public seed) idx
          (derive_child_keypair seed idx).2)
        "child_public_key" (.str (b64encode c2)) = PyVal.dict
        [("path_index", .int (idx : Int)),
         ("root_public_key", .str (b64encode (ed25519_public seed))),
         ("child_public_key", .str (b64encode c2)),
         ("derivation_hash", .str (b64encode (sha256 (ed25519_public seed ++
           beBytes 4 idx ++ DERIVATION_CONTEXT)))),
         ("algorithm", .str "ed25519"),
         ("context", .str "vanikeys-ssh-v1")] from rfl]
    rw [verify_checks_spec (.int (idx : Int))
      (.str (b64encode c2))
      (.str (b64encode (sha256 (ed25519_public seed ++ beBytes 4 idx ++
        DERIVATION_CONTEXT))))
      (.str (b64encode (ed25519_public seed))) (.str "ed25519")
      (.str "vanikeys-ssh-v1") seed c2
      (sha256 (ed25519_public seed ++ beBytes 4 idx ++ DERIVATION_CONTEXT))
      (b64decode_encode_str _ hb2) (b64decode_encode_str _ hhb)
      (derive_child_keypair seed idx) (derive_child_keypairE_nat seed idx h1 h2)
      (seed_to_root_keypair seed) (seed_to_root_keypairE_ok seed h1)
      idx (pyIndexCheck_nat idx h2)]
    simp [Ne.symm hne]
  · intro idx2 hlt hne
    rw [show setDictField
        (generate_derivation_proof (ed25519_public seed) idx
          (derive_child_keypair seed idx).2)
        "path_index" (.int (idx2 : Int)) = PyVal.dict
        [("path_index", .int (idx2 : Int)),
         ("root_public_key", .str (b64encode (ed25519_public seed))),
         ("child_public_key", .str (b64encode (derive_child_keypair seed idx).2)),
         ("derivation_hash", .str (b64encode (sha256 (ed25519_public seed ++
           beBytes 4 idx ++ DERIVATION_CONTEXT)))),
         ("algorithm", .str "ed25519"),
         ("context", .str "vanikeys-ssh-v1")] from rfl]
    rw [verify_checks_spec (.int (idx2 : Int))
      (.str (b64encode (derive_child_keypair seed idx).2))
      (.str (b64encode (sha256 (ed25519_public seed ++ beBytes 4 idx ++
        DERIVATION_CONTEXT))))
      (.str (b64encode (ed25519_public seed))) (.str "ed25519")
      (.str "vanikeys-ssh-v1") seed
      (derive_child_keypair seed idx).2
      (sha256 (ed25519_public seed ++ beBytes 4 idx ++ DERIVATION_CONTEXT))
      (b64decode_encode_str _ hcb) (b64decode_encode_str _ hhb)
      (derive_child_keypair seed idx2) (derive_child_keypairE_nat seed idx2 h1 hlt)
      (seed_to_root_keypair seed) (seed_to_root_keypairE_ok seed h1)
      idx2 (pyIndexCheck_nat idx2 hlt)]
    simp [hne]
  · intro seed2 hl2 hne
    rw [show generate_derivation_proof (ed25519_public seed) idx
        (derive_child_keypair seed idx).2 = PyVal.dict
        [("path_index", .int (idx : Int)),
         ("root_public_key", .str (b64encode (ed25519_public seed))),
         ("child_public_key", .str (b64encode (derive_child_keypair seed idx).2)),
         ("derivation_hash", .str (b64encode (sha256 (ed25519_public seed ++
           beBytes 4 idx ++ DERIVATION_CONTEXT)))),
         ("algorithm", .str "ed25519"),
         ("context", .str "vanikeys-ssh-v1")] from rfl]
    rw [verify_checks_spec (.int (idx : Int))
      (.str (b64encode (derive_child_keypair seed idx).2))
      (.str (b64encode (sha256 (ed25519_public seed ++ beBytes 4 idx ++
        DERIVATION_CONTEXT))))
      (.str (b64encode (ed25519_public seed))) (.str "ed25519")
      (.str "vanikeys-ssh-v1") seed2
      (derive_child_keypair seed idx).2
      (sha256 (ed25519_public seed ++ beBytes 4 idx ++ DERIVATION_CONTEXT))
      (b64decode_encode_str _ hcb) (b64decode_encode_str _ hhb)
      (derive_child_keypair seed2 idx) (derive_child_keypairE_nat seed2 idx hl2 h2)
      (seed_to_root_keypair seed2) (seed_to_root_keypairE_ok seed2 hl2)
      idx (pyIndexCheck_nat idx h2)]
    simp [hne]

set_option maxRecDepth 1000000 in
/-- C2 counterexample: changing the path index of a generated proof to the
out-of-range value `2 ^ 32` makes verification raise an uncaught
AssertionError instead of returning false. -/
theorem derivation_proof_oob_index_raises :
    verify_derivation_proofE
      (setDictField
        (generate_derivation_proof (ed25519_public zeroSeed) 0
          (derive_child_keypair zeroSeed 0).2)
        "path_index" (.int (2 ^ 32)))
      zeroSeed = .error (.assertionError "Path index must be in range") := by
  rfl

set_option maxRecDepth 1000000 in
/-- Witness for C2 at the zero seed and index 0. -/
theorem derivation_proof_verify_tamper_witness :
    zeroSeed.length = 32 ∧ 0 < 2 ^ 32 ∧
    verify_derivation_proofE
      (generate_derivation_proof (ed25519_public zeroSeed) 0
        (derive_child_keypair zeroSeed 0).2) zeroSeed = .ok true ∧
    verify_derivation_proofE
      (setDictField
        (generate_derivation_proof (ed25519_public zeroSeed) 0
          (derive_child_keypair zeroSeed 0).2)
        "child_public_key" (.str (b64encode zeroSeed))) zeroSeed = .ok false ∧
    verify_derivation_proofE
      (setDictField
        (generate_derivation_proof (ed25519_public zeroSeed) 0
          (derive_child_keypair zeroSeed 0).2)
        "path_index" (.int (1 : Int))) zeroSeed = .ok false ∧
    verify_derivation_proofE
      (generate_derivation_proof (ed25519_public zeroSeed) 0
        (derive_child_keypair zeroSeed 0).2) oneSeed = .ok false := by
  have H := derivation_proof_verify_tamper zeroSeed 0 (by decide) (by decide)
  exact ⟨by decide, by decide, H.1,
    H.2.1 zeroSeed (by decide) (by decide),
    H.2.2.1 1 (by decide) (by decide),
    H.2.2.2 oneSeed (by decide) (by decide)⟩

/-! ### Claim C3 -/

/-- C3 (amended): whenever the decode body of `verify_derivation_proof`
fails with one of the caught error classes (KeyError, ValueError,
TypeError — missing fields, bad base64, wrong types), verification
returns false rather than raising. -/
theorem verify_malformed_fails_closed (proof : PyVal) (seed : List Nat)
    (e : PyErr) (he : verify_derivation_proof_checks proof seed = .error e)
    (hc : catchable e = true) :
    verify_derivation_proofE proof seed = .ok false := by
  unfold verify_derivation_proofE
  rw [he]
  simp [hc]

/-- Witness for C3 on a proof missing every field. -/
theorem verify_malformed_fails_closed_witness :
    verify_derivation_proof_checks (.dict []) zeroSeed =
        .error (.keyError "path_index") ∧
      catchable (.keyError "path_index") = true ∧
      verify_derivation_proofE (.dict []) zeroSeed = .ok false :=
  ⟨rfl, rfl, verify_malformed_fails_closed (.dict []) zeroSeed _ rfl rfl⟩

/-- C3 counterexample: an out-of-range path index makes
`verify_derivation_proof` raise AssertionError instead of returning false,
and `verify_order_proof` raises KeyError on a proof with missing fields
instead of returning a structured invalid result. -/
theorem verify_malformed_raises :
    verify_derivation_proofE
        (.dict [("path_index", .int (2 ^ 32)),
          ("child_public_key", .str "AAAA"),
          ("derivation_hash", .str "AAAA")]) zeroSeed =
      .error (.assertionError "Path index must be in range") ∧
    verify_order_proofE (.dict []) zeroSeed "a" =
      .error (.keyError "derivation") := by
  exact ⟨rfl, rfl⟩

/-! ### Multi-substring fuzzy matcher (`matchers/multi_substring.py`) -/

/-- `FuzzyRules.EQUIVALENTS`: equivalence lists keyed by the 14 table
characters (first element canonical). -/
def leetEquivalents (c : Char) : Option (List Char) :=
  if c = '0' ∨ c = 'O' then some ['O', '0']
  else if c = '1' ∨ c = 'I' then some ['I', '1']
  else if c = '3' ∨ c = 'E' then some ['E', '3']
  else if c = '4' ∨ c = 'A' then some ['A', '4']
  else if c = '5' ∨ c = 'S' then some ['S', '5']
  else if c = '7' ∨ c = 'T' then some ['T', '7']
  else if c = '8' ∨ c = 'B' then some ['B', '8']
  else none

/-- Character class built by `FuzzyRules.to_regex_pattern` for one pattern
character (the set of characters the regex class matches; the source's
sorted deduplication of the class string does not change that set). -/
def fuzzyClass (c : Char) : List Char :=
  match leetEquivalents c.toUpper with
  | some eq => (eq.map (fun x => [x, x.toLower])).join
  | Option.none => [c.toUpper, c.toUpper.toLower]

/-- Character class built by `_build_pattern` without fuzzy rules:
the escaped literal when case-sensitive, both cases for letters otherwise. -/
def plainClass (case_sensitive : Bool) (c : Char) : List Char :=
  if case_sensitive then [c]
  else if c.isAlpha then [c.toUpper, c.toLower]
  else [c]

/-- One substring compiled to its per-character classes. -/
def buildSub (fuzzy case_sensitive : Bool) (sub : String) : List (List Char) :=
  if fuzzy then sub.data.map fuzzyClass else sub.data.map (plainClass case_sensitive)

def classMatch (cls : List Char) (c : Char) : Bool := cls.any (fun x => x == c)

/-- The compiled substring matches the text starting at its head. -/
def subMatchesList : List (List Char) → List Char → Bool
  | [], _ => true
  | _ :: _, [] => false
  | cls :: ss, c :: ts => classMatch cls c && subMatchesList ss ts

/-- The compiled substring matches at position `j`. -/
def subMatchesAt (sub : List (List Char)) (text : List Char) (j : Nat) : Bool :=
  subMatchesList sub (text.drop j)

/-- The text segment strictly between positions `i` and `j` contains no
newline: the pattern is compiled without `re.DOTALL`, so the `.` of the
`.*?` gap never matches a newline character. -/
def gapFree (text : List Char) (i j : Nat) : Bool :=
  decide (∀ c ∈ (text.drop i).take (j - i), c ≠ '\n')

/-- Search semantics of the composed pattern continuing at position `i`
(the previous substring's end): a `.*?` gap — any characters except
newlines — then the next substring, and so on. -/
def existsMatchFrom : List (List (List Char)) → List Char → Nat → Bool
  | [], _, _ => true
  | s :: rest, text, i =>
    (List.range (text.length + 1)).any (fun j =>
      decide (i ≤ j) && gapFree text i j && subMatchesAt s text j &&
        existsMatchFrom rest text (j + s.length))

/-- Weakened continuation predicate that ignores what the gaps contain:
each substring matches somewhere at or after the previous end.  This is
not the composed regex (whose gaps refuse newlines) but the invariant
preserved by the per-substring re-location loop of `match_positions`,
whose individual substring searches have no gaps at all. -/
def existsMatchAnyFrom : List (List (List Char)) → List Char → Nat → Bool
  | [], _, _ => true
  | s :: rest, text, i =>
    (List.range (text.length + 1)).any (fun j =>
      decide (i ≤ j) && subMatchesAt s text j &&
        existsMatchAnyFrom rest text (j + s.length))

/-- The full composed pattern matches starting exactly at `j`: the first
substring at `j` itself, each later one after a newline-free gap. -/
def fullMatchAt (ps : List (List (List Char))) (text : List Char) (j : Nat) :
    Bool :=
  match ps with
  | [] => true
  | s :: rest => subMatchesAt s text j && existsMatchFrom rest text (j + s.length)

/-- `match_obj.start()` of `regex.search`: the leftmost start position of a
full match. -/
def searchStart (ps : List (List (List Char))) (text : List Char) : Option Nat :=
  (List.range (text.length + 1)).find? (fullMatchAt ps text)

/-- `MultiSubstringMatcher.match`: `regex.search(text) is not None`. -/
def matcherMatch (substrings : List String) (fuzzy case_sensitive : Bool)
    (text : String) : Bool :=
  (searchStart (substrings.map (buildSub fuzzy case_sensitive)) text.data).isSome

/-- Leftmost position at or after `i` where the compiled substring matches
(`re.search` on the slice `text[i:]`, offset back to absolute positions). -/
def findFromAux (s : List (List Char)) (text : List Char) : Nat → Nat → Option Nat
  | _, 0 => Option.none
  | j, f + 1 =>
    if subMatchesAt s text j then some j else findFromAux s text (j + 1) f

def findFrom (s : List (List Char)) (text : List Char) (i : Nat) : Option Nat :=
  findFromAux s text i (text.length + 1 - i)

/-- The per-substring re-location loop of `match_positions`: each substring
is searched from the previous end; a failed step returns `None`. -/
def relocate : List (List (List Char)) → List Char → Nat →
    Option (List (Nat × Nat))
  | [], _, _ => some []
  | s :: rest, text, i =>
    match findFrom s text i with
    | Option.none => Option.none
    | some j =>
      match relocate rest text (j + s.length) with
      | Option.none => Option.none
      | some ps => some ((j, j + s.length) :: ps)

/-- `MultiSubstringMatcher.match_positions`. -/
def match_positions (substrings : List String) (fuzzy case_sensitive : Bool)
    (text : String) : Option (List (Nat × Nat)) :=
  let ps := substrings.map (buildSub fuzzy case_sensitive)
  match searchStart ps text.data with
  | Option.none => Option.none
  | some s => relocate ps text.data s

/-! ### Character-level facts -/

theorem existsMatchAnyFrom_mono (ps : List (List (List Char)))
    (text : List Char) {i i' : Nat} (hle : i' ≤ i)
    (h : existsMatchAnyFrom ps text i = true) :
    existsMatchAnyFrom ps text i' = true := by
  cases ps with
  | nil => rfl
  | cons s rest =>
    simp only [existsMatchAnyFrom, List.any_eq_true, List.mem_range,
      Bool.and_eq_true, decide_eq_true_eq] at h ⊢
    obtain ⟨j, hjr, ⟨hij, hsub⟩, hrest⟩ := h
    exact ⟨j, hjr, ⟨by omega, hsub⟩, hrest⟩

/-- A gap-respecting match is in particular a match when the gap contents
are ignored. -/
theorem existsMatchFrom_weaken (text : List Char) :
    ∀ ps i, existsMatchFrom ps text i = true →
      existsMatchAnyFrom ps text i = true := by
  intro ps
  induction ps with
  | nil => intro i _; rfl
  | cons s rest ih =>
    intro i h
    simp only [existsMatchFrom, existsMatchAnyFrom, List.any_eq_true,
      List.mem_range, Bool.and_eq_true, decide_eq_true_eq] at h ⊢
    obtain ⟨j, hjr, ⟨⟨hij, hgap⟩, hsub⟩, hrest⟩ := h
    exact ⟨j, hjr, ⟨hij, hsub⟩, ih _ hrest⟩

/-- One span per compiled substring, in order: each span starts at or after
`i` (for the tail, the previous span's end) and ends exactly its
substring's length after its start. -/
def spansFor : List (List (List Char)) → List (Nat × Nat) → Nat → Prop
  | [], spans, _ => spans = []
  | s :: rest, spans, i =>
    ∃ a tail, spans = (a, a + s.length) :: tail ∧ i ≤ a ∧
      spansFor rest tail (a + s.length)

theorem spansFor_length (ps : List (List (List Char))) :
    ∀ spans i, spansFor ps spans i → spans.length = ps.length := by
  induction ps with
  | nil =>
    intro spans i h
    simp only [spansFor] at h
    simp [h]
  | cons s rest ih =>
    intro spans i h
    obtain ⟨a, tail, rfl, _, htail⟩ := h
    simp [ih tail _ htail]

theorem spansFor_mono (ps : List (List (List Char))) (spans : List (Nat × Nat))
    {i i' : Nat} (hle : i' ≤ i) (h : spansFor ps spans i) :
    spansFor ps spans i' := by
  cases ps with
  | nil => exact h
  | cons s rest =>
    obtain ⟨a, tail, rfl, hia, ht⟩ := h
    exact ⟨a, tail, rfl, by omega, ht⟩

theorem findFromAux_some (s : List (List Char)) (text : List Char) :
    ∀ fuel i j, i ≤ j → j < i + fuel → subMatchesAt s text j = true →
      ∃ k, findFromAux s text i fuel = some k ∧ i ≤ k ∧ k ≤ j ∧
        subMatchesAt s text k = true := by
  intro fuel
  induction fuel with
  | zero =>
    intro i j h1 h2 h3
    omega
  | succ f ih =>
    intro i j h1 h2 h3
    by_cases hm : subMatchesAt s text i = true
    · exact ⟨i, by simp [findFromAux, hm], Nat.le_refl i, h1, hm⟩
    · have hne : i ≠ j := fun he => hm (he ▸ h3)
      obtain ⟨k, hk, hik, hkj, hks⟩ := ih (i + 1) j (by omega) (by omega) h3
      exact ⟨k, by simp [findFromAux, hm, hk], by omega, hkj, hks⟩

/-- After a successful combined match from `i`, the per-substring
re-location loop never fails: it returns one ordered span per substring.
The failure branch of `match_positions` (returning `None` after the full
pattern already matched) is unreachable. -/
theorem relocate_sound (text : List Char) :
    ∀ ps i, existsMatchAnyFrom ps text i = true →
      ∃ spans, relocate ps text i = some spans ∧ spansFor ps spans i := by
  intro ps
  induction ps with
  | nil =>
    intro i _
    exact ⟨[], rfl, rfl⟩
  | cons s rest ih =>
    intro i h
    simp only [existsMatchAnyFrom, List.any_eq_true, List.mem_range,
      Bool.and_eq_true, decide_eq_true_eq] at h
    obtain ⟨j, hjr, ⟨hij, hsub⟩, hrest⟩ := h
    obtain ⟨k, hk, hik, hkj, hks⟩ :=
      findFromAux_some s text (text.length + 1 - i) i j hij (by omega) hsub
    have hrest2 : existsMatchAnyFrom rest text (k + s.length) = true :=
      existsMatchAnyFrom_mono rest text (by omega) hrest
    obtain ⟨spans, hsp, hsf⟩ := ih (k + s.length) hrest2
    refine ⟨(k, k + s.length) :: spans, ?_, ⟨k, spans, rfl, hik, hsf⟩⟩
    simp only [relocate, findFrom, hk, hsp]

theorem searchStart_of_match (ps : List (List (List Char))) (text : List Char)
    (h : (searchStart ps text).isSome = true) :
    ∃ s0, searchStart ps text = some s0 ∧
      existsMatchAnyFrom ps text s0 = true := by
  obtain ⟨s0, hs0⟩ := Option.isSome_iff_exists.mp h
  have hs0f : (List.range (text.length + 1)).find? (fullMatchAt ps text) =
      some s0 := hs0
  have hfull : fullMatchAt ps text s0 = true := List.find?_some hs0f
  have hmem : s0 ∈ List.range (text.length + 1) :=
    List.mem_of_find?_eq_some hs0f
  have hlt : s0 < text.length + 1 := List.mem_range.mp hmem
  refine ⟨s0, hs0, ?_⟩
  cases ps with
  | nil => rfl
  | cons s rest =>
    simp only [fullMatchAt, Bool.and_eq_true] at hfull
    simp only [existsMatchAnyFrom, List.any_eq_true, List.mem_range,
      Bool.and_eq_true, decide_eq_true_eq]
    exact ⟨s0, by omega, ⟨Nat.le_refl s0, hfull.1⟩,
      existsMatchFrom_weaken text rest (s0 + s.length) hfull.2⟩

/-- C5: whenever the combined multi-substring match succeeds,
`match_positions` returns exactly one (start, end) span per substring, in
order, each span ending its substring's length after its start and each
later span starting at or after the previous span's end. In particular the
re-location loop never fails after a successful combined match, so the
internal-invariant-violation branch is unreachable and never reported as
an ordinary no-match result. -/
theorem match_positions_ordered (substrings : List String)
    (fuzzy case_sensitive : Bool) (text : String)
    (h : matcherMatch substrings fuzzy case_sensitive text = true) :
    ∃ spans,
      match_positions substrings fuzzy case_sensitive text = some spans ∧
      spans.length = substrings.length ∧
      spansFor (substrings.map (buildSub fuzzy case_sensitive)) spans 0 := by
  unfold matcherMatch at h
  obtain ⟨s0, hs0, hm0⟩ := searchStart_of_match _ _ h
  obtain ⟨spans, hrel, hsf⟩ := relocate_sound text.data _ s0 hm0
  refine ⟨spans, ?_, ?_, spansFor_mono _ _ (Nat.zero_le s0) hsf⟩
  · simp only [match_positions, hs0, hrel]
  · rw [spansFor_length _ _ _ hsf]
    simp

theorem match_positions_ordered_witness :
    matcherMatch ["GO", "BE", "AWE", "SOME"] false false "GOaaBExAWEySOME"
      = true ∧
    (∃ spans,
      match_positions ["GO", "BE", "AWE", "SOME"] false false "GOaaBExAWEySOME"
        = some spans ∧
      spans.length = (["GO", "BE", "AWE", "SOME"] : List String).length ∧
      spansFor ((["GO", "BE", "AWE", "SOME"] : List String).map
        (buildSub false false)) spans 0) :=
  ⟨by decide, match_positions_ordered ["GO", "BE", "AWE", "SOME"] false false
    "GOaaBExAWEySOME" (by decide)⟩

/-! ### Claim C9: pattern and matcher validation -/

/-- `MatchMode` (`domain/pattern.py`); `PRE`/`SUF` stand for the
start-anchored and end-anchored modes. -/
inductive MatchMode where
  | PRE
  | SUF
  | CONTAINS
  | MULTI_SUBSTRING
  | REGEX
deriving DecidableEq

/-- `FuzzyMode` (`domain/pattern.py`). -/
inductive FuzzyMode where
  | NONE
  | LEETSPEAK
  | HOMOGLYPHS
  | PHONETIC
deriving DecidableEq

/-- The core fields of the `Pattern` dataclass. -/
structure Pattern where
  substrings : List String
  mode : MatchMode
  fuzzy : FuzzyMode
  case_sensitive : Bool
deriving DecidableEq

/-- Python `str.upper` on the ASCII alphabet. -/
def strUpper (s : String) : String := ⟨s.data.map Char.toUpper⟩

/-- `Pattern.__post_init__`: dataclass construction followed by its
validation and case normalization; a raised `ValueError` is the error
case. -/
def Pattern.create (substrings : List String) (mode : MatchMode)
    (fuzzy : FuzzyMode) (case_sensitive : Bool) : Except PyErr Pattern :=
  if substrings.isEmpty then
    .error (.valueError "Pattern must have at least one substring")
  else
    let subs := if case_sensitive then substrings else substrings.map strUpper
    if mode = MatchMode.MULTI_SUBSTRING ∧ subs.length < 2 then
      .error (.valueError "Multi-substring mode requires at least 2 substrings")
    else
      .ok ⟨subs, mode, fuzzy, case_sensitive⟩

/-- `MultiSubstringMatcher.__init__`: the validation on the substring
list before the pattern is compiled. -/
def multiSubstringMatcher_init (substrings : List String)
    (fuzzy case_sensitive : Bool) :
    Except PyErr (List String × Bool × Bool) :=
  if substrings.isEmpty then
    .error (.valueError "Must provide at least one substring")
  else
    .ok (substrings, fuzzy, case_sensitive)

/-- C9: for every match mode, fuzzy mode and case-sensitivity flag,
constructing a multi-substring pattern from fewer than 2 substrings fails
with a `ValueError`, and constructing a pattern or a multi-substring
matcher from an empty substring list fails with a `ValueError`. -/
theorem pattern_validation (mode : MatchMode) (fuzzy : FuzzyMode)
    (fz cs : Bool) (subs : List String) (h : subs.length < 2) :
    (∃ m, Pattern.create subs MatchMode.MULTI_SUBSTRING fuzzy cs =
      .error (.valueError m)) ∧
    Pattern.create [] mode fuzzy cs =
      .error (.valueError "Pattern must have at least one substring") ∧
    multiSubstringMatcher_init [] fz cs =
      .error (.valueError "Must provide at least one substring") := by
  refine ⟨?_, rfl, rfl⟩
  cases subs with
  | nil => exact ⟨"Pattern must have at least one substring", rfl⟩
  | cons a tail =>
    cases tail with
    | cons b t =>
      simp at h
      omega
    | nil =>
      refine ⟨"Multi-substring mode requires at least 2 substrings", ?_⟩
      cases cs <;> simp [Pattern.create]

theorem pattern_validation_witness :
    (["GO"] : List String).length < 2 ∧
    ((∃ m, Pattern.create ["GO"] MatchMode.MULTI_SUBSTRING
        FuzzyMode.LEETSPEAK false = .error (.valueError m)) ∧
     Pattern.create [] MatchMode.CONTAINS FuzzyMode.LEETSPEAK false =
       .error (.valueError "Pattern must have at least one substring") ∧
     multiSubstringMatcher_init [] true false =
       .error (.valueError "Must provide at least one substring")) :=
  ⟨by decide, pattern_validation MatchMode.CONTAINS FuzzyMode.LEETSPEAK true
    false ["GO"] (by decide)⟩

/-! ### Claim C8: contains-probability estimate -/

def BASE58_SIZE : Nat := 58

/-- `ProbabilityCalculator.FUZZY_EQUIVALENTS`: every key of the table maps
to 2 equivalent characters. -/
def FUZZY_EQUIVALENTS (c : Char) : Option Nat :=
  if c = '0' ∨ c = 'O' ∨ c = '1' ∨ c = 'I' ∨ c = '3' ∨ c = 'E' ∨
     c = '4' ∨ c = 'A' ∨ c = '5' ∨ c = 'S' ∨ c = '7' ∨ c = 'T' ∨
     c = '8' ∨ c = 'B' then some 2
  else Option.none

/-- One factor of the fuzzy denominator in
`ProbabilityCalculator._calculate_prefix`. -/
def fuzzyDenomChar (c : Char) : Nat :=
  match FUZZY_EQUIVALENTS c with
  | some n => n
  | Option.none => if c.isAlpha then 2 else 1

/-- `ProbabilityCalculator._calculate_prefix` over exact rationals. -/
def calculate_prefixQ (p : Pattern) : ℚ :=
  let substring := p.substrings.headD ""
  let length := substring.length
  if p.fuzzy = FuzzyMode.NONE then 1 / ((BASE58_SIZE : ℚ) ^ length)
  else 1 / (((strUpper substring).data.map fuzzyDenomChar).prod : ℚ)

/-- `ProbabilityCalculator._calculate_contains` over exact rationals. -/
def calculate_containsQ (p : Pattern) : ℚ :=
  let substring := p.substrings.headD ""
  let length := substring.length
  let base_prob := calculate_prefixQ p
  let num_positions : ℤ := max 1 (44 - (length : ℤ) + 1)
  min 1 (base_prob * (num_positions : ℚ))

/-- The `expected_attempts` computation of
`ProbabilityCalculator.calculate` (`Option.none` standing for the infinite
float returned when the probability is zero). -/
def calculate_expectedQ (prob : ℚ) : Option ℚ :=
  if 0 < prob then some (1 / prob) else Option.none

/-- `estimate_pattern_difficulty` (`crypto/matching.py`) over exact
rationals: the any-position match probability and the expected attempt
count (`int` truncates the reciprocal; on this branch the reciprocal is at
least 1, so truncation is the floor). -/
def estimate_pattern_difficultyQ (pattern : String) (case_sensitive : Bool) :
    ℚ × ℤ :=
  let charset_size : Nat := if case_sensitive then 64 else 44
  let fingerprint_length : ℤ := 43
  let pattern_length := pattern.length
  let positions : ℤ := max 1 (fingerprint_length - (pattern_length : ℤ) + 1)
  let prob_at_position : ℚ := (1 / (charset_size : ℚ)) ^ pattern_length
  let prob_any_position : ℚ := min 1 ((positions : ℚ) * prob_at_position)
  let expected_attempts : ℤ :=
    if 0 < prob_any_position then Rat.floor (1 / prob_any_position)
    else 10 ^ 15
  (prob_any_position, expected_attempts)

/-- The contains-probability formula exactly as the claim states it:
`min(1, p * max(1, fingerprint_length - L + 1))`. -/
def specContainsProb (p : ℚ) (fingerprint_length L : Nat) : ℚ :=
  min 1 (p * ((max 1 ((fingerprint_length : ℤ) - (L : ℤ) + 1) : ℤ) : ℚ))

theorem fuzzyDenomChar_pos (c : Char) : 0 < fuzzyDenomChar c := by
  unfold fuzzyDenomChar FUZZY_EQUIVALENTS
  split_ifs <;> simp

theorem calculate_prefixQ_pos (p : Pattern) : 0 < calculate_prefixQ p := by
  unfold calculate_prefixQ
  split_ifs
  · apply div_pos one_pos
    apply pow_pos
    norm_num [BASE58_SIZE]
  · apply div_pos one_pos
    have h : 0 < (((strUpper (p.substrings.headD "")).data.map
        fuzzyDenomChar).prod : Nat) := by
      apply List.prod_pos
      intro a ha
      obtain ⟨c, hc, rfl⟩ := List.mem_map.mp ha
      exact fuzzyDenomChar_pos c
    exact_mod_cast h

theorem calculate_containsQ_pos (p : Pattern) : 0 < calculate_containsQ p := by
  unfold calculate_containsQ
  apply lt_min one_pos
  apply mul_pos (calculate_prefixQ_pos p)
  have h : (0 : ℤ) <
      max 1 (44 - ((p.substrings.headD "").length : ℤ) + 1) :=
    lt_of_lt_of_le zero_lt_one (le_max_left _ _)
  exact_mod_cast h

theorem estimateQ_pos (pat : String) (cs : Bool) :
    0 < (estimate_pattern_difficultyQ pat cs).1 := by
  unfold estimate_pattern_difficultyQ
  apply lt_min one_pos
  apply mul_pos
  · have h : (0 : ℤ) < max 1 (43 - (pat.length : ℤ) + 1) :=
      lt_of_lt_of_le zero_lt_one (le_max_left _ _)
    exact_mod_cast h
  · apply pow_pos
    apply div_pos one_pos
    rcases cs with _ | _ <;> norm_num

theorem rat_floor_44_43 : Rat.floor (44 / 43 : ℚ) = 1 := by
  have hge : (1 : ℤ) ≤ Rat.floor (44 / 43 : ℚ) :=
    Rat.le_floor.mpr (by norm_num)
  have hlt : ¬ (2 : ℤ) ≤ Rat.floor (44 / 43 : ℚ) := by
    intro h
    have h2 := Rat.le_floor.mp h
    norm_num at h2
  omega

theorem estimate_snd (pat : String) (cs : Bool) :
    (estimate_pattern_difficultyQ pat cs).2 =
      Rat.floor (1 / (estimate_pattern_difficultyQ pat cs).1) := by
  have hpos := estimateQ_pos pat cs
  unfold estimate_pattern_difficultyQ at hpos ⊢
  simp only [] at hpos ⊢
  rw [if_pos hpos]

/-- C8 counterexample: for the one-character pattern "a" in
case-insensitive mode the estimated probability is 43/44, whose reciprocal
is 44/43, yet `estimate_pattern_difficulty` reports 1 expected attempt —
`int` truncation, not the reciprocal the claim describes. -/
theorem contains_expected_truncated :
    (estimate_pattern_difficultyQ "a" false).1 = 43 / 44 ∧
    (estimate_pattern_difficultyQ "a" false).2 = 1 ∧
    1 / (estimate_pattern_difficultyQ "a" false).1 = 44 / 43 ∧
    ((estimate_pattern_difficultyQ "a" false).2 : ℚ) ≠
      1 / (estimate_pattern_difficultyQ "a" false).1 := by
  have hlen : ("a" : String).length = 1 := rfl
  have h1 : (estimate_pattern_difficultyQ "a" false).1 = 43 / 44 := by
    simp only [estimate_pattern_difficultyQ, hlen]
    norm_num [min_def, max_def]
  have h2 : (estimate_pattern_difficultyQ "a" false).2 = 1 := by
    rw [estimate_snd, h1]
    rw [show (1 : ℚ) / (43 / 44) = 44 / 43 by norm_num]
    exact rat_floor_44_43
  refine ⟨h1, h2, by rw [h1]; norm_num, by rw [h1, h2]; norm_num⟩

/-- C8 (amended): in both estimators the contains probability equals the
claimed formula `min(1, p * max(1, fingerprint_length - L + 1))` — with
fingerprint length 43 in `crypto/matching.py` and 44 in
`core/probability.py` — and `ProbabilityCalculator` derives expected
attempts as the exact reciprocal of that probability, while
`estimate_pattern_difficulty` returns the floor (Python `int` truncation)
of the reciprocal. -/
theorem contains_probability_formula (pat : String) (cs : Bool)
    (p : Pattern) (hne : p.substrings ≠ []) (hp : pat ≠ "") :
    (estimate_pattern_difficultyQ pat cs).1 =
      specContainsProb ((1 / ((if cs then (64 : Nat) else 44) : ℚ)) ^ pat.length)
        43 pat.length ∧
    calculate_containsQ p =
      specContainsProb (calculate_prefixQ p) 44
        (p.substrings.headD "").length ∧
    calculate_expectedQ (calculate_containsQ p) =
      some (1 / calculate_containsQ p) ∧
    (estimate_pattern_difficultyQ pat cs).2 =
      Rat.floor (1 / (estimate_pattern_difficultyQ pat cs).1) := by
  refine ⟨?_, ?_, ?_, ?_⟩
  · simp [estimate_pattern_difficultyQ, specContainsProb, mul_comm]
  · simp [calculate_containsQ, specContainsProb]
  · simp [calculate_expectedQ, calculate_containsQ_pos p]
  · exact estimate_snd pat cs

theorem contains_probability_formula_witness :
    ((⟨["AB"], MatchMode.CONTAINS, FuzzyMode.NONE, false⟩ :
        Pattern).substrings ≠ [] ∧ ("ab" : String) ≠ "") ∧
    ((estimate_pattern_difficultyQ "ab" true).1 =
      specContainsProb ((1 / ((if true then (64 : Nat) else 44) : ℚ)) ^
        ("ab" : String).length) 43 ("ab" : String).length ∧
    calculate_containsQ ⟨["AB"], MatchMode.CONTAINS, FuzzyMode.NONE, false⟩ =
      specContainsProb
        (calculate_prefixQ ⟨["AB"], MatchMode.CONTAINS, FuzzyMode.NONE, false⟩)
        44 ((["AB"] : List String).headD "").length ∧
    calculate_expectedQ
        (calculate_containsQ ⟨["AB"], MatchMode.CONTAINS, FuzzyMode.NONE, false⟩) =
      some (1 / calculate_containsQ
        ⟨["AB"], MatchMode.CONTAINS, FuzzyMode.NONE, false⟩) ∧
    (estimate_pattern_difficultyQ "ab" true).2 =
      Rat.floor (1 / (estimate_pattern_difficultyQ "ab" true).1)) :=
  ⟨⟨by decide, by decide⟩, contains_probability_formula "ab" true
    ⟨["AB"], MatchMode.CONTAINS, FuzzyMode.NONE, false⟩ (by decide) (by decide)⟩

end VaniKeys
